import Mathlib

/-!
Verification of the SMPP client protocol core (files `pdu.go`, `connection.go`
and the session client API) against its specification.

Modelling conventions:
* bytes and Go `uint32` values are natural numbers, with `% 4294967296`
  (resp. `% 256`) applied exactly where the Go code performs unsigned
  wrap-around or byte truncation;
* byte slices and Go strings are `List Nat`;
* the network transport is abstracted by an oracle: each `sendPDU`
  (write one PDU, block for one response) is given the response the
  transport would deliver, as an `Except String Pdu`; the PDUs handed to
  `writePDU` are collected in a `sent` list so that what was written to
  the wire is observable.
-/

namespace Smpp

/-- The `pdu` struct of pdu.go: one SMPP protocol data unit. -/
structure Pdu where
  commandLength : Nat
  commandID : Nat
  commandStatus : Nat
  sequenceNumber : Nat
  body : List Nat
deriving DecidableEq

/-- `newPDU` from pdu.go: fresh PDU with empty body, zero status. -/
def newPDU (commandID sequenceNumber : Nat) : Pdu :=
  { commandLength := 16
    commandID := commandID
    commandStatus := 0
    sequenceNumber := sequenceNumber
    body := [] }

/-- `(*pdu).write` from pdu.go: append raw bytes to the body. -/
def Pdu.write (p : Pdu) (data : List Nat) : Pdu :=
  { p with body := p.body ++ data }

/-- `(*pdu).writeByte` from pdu.go: append one byte to the body. -/
def Pdu.writeByte (p : Pdu) (b : Nat) : Pdu :=
  { p with body := p.body ++ [b] }

/-- `(*pdu).writeString` from pdu.go: append the string bytes then a
null terminator (the terminator alone when the string is empty). -/
def Pdu.writeString (p : Pdu) (s : List Nat) : Pdu :=
  { p with body := p.body ++ s ++ [0] }

/-- SMPP command id `SUBMIT_SM = 0x00000004`. -/
def SUBMIT_SM : Nat := 0x00000004

/-- SMPP command id `UNBIND = 0x00000006`. -/
def UNBIND : Nat := 0x00000006

/-- SMPP command id `BIND_TRANSMITTER = 0x00000002`. -/
def BIND_TRANSMITTER : Nat := 0x00000002

/-- The `SMSMessage` struct of the client API. -/
structure SMSMessage where
  SourceAddr : List Nat
  DestAddr : List Nat
  Message : List Nat
  DataCoding : Nat
  IsUnicode : Bool
  IsBinary : Bool
  RequestDeliveryReport : Bool
deriving DecidableEq

/-- The protocol-relevant state of the `Client` struct: the `bound` flag,
the `sequenceNum` counter, and whether the underlying socket is open
(`conn.conn != nil`). -/
structure Client where
  bound : Bool
  sequenceNum : Nat
  sockOpen : Bool
deriving DecidableEq

/-- `nextSequence`: returns the current counter, then increments it
(`uint32` wrap-around) and resets it to 1 once it exceeds 0x7FFFFFFF. -/
def nextSequence (c : Client) : Nat × Client :=
  let seq := c.sequenceNum
  let s1 := (c.sequenceNum + 1) % 4294967296
  let s2 := if 0x7FFFFFFF < s1 then 1 else s1
  (seq, { c with sequenceNum := s2 })

/-- The `dataCoding` local of `SendSMS`: 0x08 when `IsUnicode`, otherwise
0x04 when `IsBinary`, otherwise 0 (default GSM). -/
def dataCodingFor (msg : SMSMessage) : Nat :=
  if msg.IsUnicode then 0x08 else if msg.IsBinary then 0x04 else 0

/-- The `esmClass` local of `SendSMS`: the binary flag 0x04 ORed in when
`IsBinary`. -/
def esmClassFor (msg : SMSMessage) : Nat :=
  if msg.IsBinary then 0x04 else 0

/-- The `regDelivery` local of `SendSMS`: 1 when a delivery report is
requested, otherwise 0. -/
def regDeliveryFor (msg : SMSMessage) : Nat :=
  if msg.RequestDeliveryReport then 1 else 0

/-- The submit_sm PDU of `SendSMS` after all mandatory parameters up to
and including `sm_default_msg_id` have been written (everything before
the `sm_length`/`short_message` fields). -/
def submitParamsPdu (seq : Nat) (msg : SMSMessage) : Pdu :=
  (newPDU SUBMIT_SM seq).writeString []
    |>.writeByte 0
    |>.writeByte 0
    |>.writeString msg.SourceAddr
    |>.writeByte 1
    |>.writeByte 1
    |>.writeString msg.DestAddr
    |>.writeByte (esmClassFor msg)
    |>.writeByte 0
    |>.writeByte 0
    |>.writeString []
    |>.writeString []
    |>.writeByte (regDeliveryFor msg)
    |>.writeByte 0
    |>.writeByte (dataCodingFor msg)
    |>.writeByte 0

/-- `writePDU`'s recomputation of `commandLength` just before encoding:
`uint32(16 + len(p.body))`. -/
def framePDU (p : Pdu) : Pdu :=
  { p with commandLength := (16 + p.body.length) % 4294967296 }

/-- Message-id extraction from a submit_sm_resp body in `SendSMS`:
strip one trailing null terminator when present. -/
def extractMessageID (body : List Nat) : List Nat :=
  if body.length = 0 then []
  else if body.getLast? = some 0 then body.dropLast
  else body

/-- The `errorMessage` mapping of `SendSMS` from a nonzero
`commandStatus` to a human-readable label (Go `switch` with an
`"unknown error"` default). -/
def errorMessageFor (status : Nat) : String :=
  if status = 1 then "message ID invalid"
  else if status = 2 then "bind failed"
  else if status = 3 then "invalid priority flag"
  else if status = 4 then "invalid registered delivery flag"
  else if status = 5 then "system error"
  else if status = 6 then "invalid source address"
  else if status = 7 then "invalid destination address"
  else if status = 8 then "invalid message ID"
  else if status = 10 then "invalid message"
  else if status = 88 then "throttled - rate limit exceeded"
  else "unknown error"

/-- Outcome of a client call: the returned value or error, the client
state afterwards, and the PDUs that were handed to `writePDU`. -/
structure SendResult where
  result : Except String (List Nat)
  client : Client
  sent : List Pdu

/-- `SendSMS`: refuse when not bound; allocate a sequence number; build
the submit_sm PDU; fail when the payload exceeds 254 bytes; otherwise
append `sm_length` (byte truncation of the length) and the payload,
write the PDU and interpret the transport's response `resp`. -/
def SendSMS (c : Client) (msg : SMSMessage) (resp : Except String Pdu) : SendResult :=
  if c.bound = false then
    { result := Except.error "not bound to SMPP server", client := c, sent := [] }
  else
    let sc := nextSequence c
    let p := submitParamsPdu sc.1 msg
    if 254 < msg.Message.length then
      { result := Except.error ("message too long (" ++ toString msg.Message.length
          ++ " bytes), max is 254 bytes")
        client := sc.2
        sent := [] }
    else
      let pf := framePDU ((p.writeByte (msg.Message.length % 256)).write msg.Message)
      match resp with
      | Except.error e => { result := Except.error e, client := sc.2, sent := [pf] }
      | Except.ok r =>
        if r.commandStatus = 0 then
          { result := Except.ok (extractMessageID r.body), client := sc.2, sent := [pf] }
        else
          { result := Except.error ("submit_sm failed with status: "
              ++ toString r.commandStatus ++ " (" ++ errorMessageFor r.commandStatus ++ ")")
            client := sc.2
            sent := [pf] }

/-- The `maxLength` local of `SendLongSMS`: 153 bytes per part, 67 for
Unicode payloads. -/
def maxLengthFor (msg : SMSMessage) : Nat :=
  if msg.IsUnicode then 67 else 153

/-- The slices produced by the segmentation loop of `SendLongSMS`:
part `i` is `Message[i*maxLength : min((i+1)*maxLength, len)]`, for
`i < partCount = ceil(len / maxLength)`. -/
def partsOf (m : List Nat) (maxLength : Nat) : List (List Nat) :=
  (List.range ((m.length + maxLength - 1) / maxLength)).map
    (fun i => (m.drop (i * maxLength)).take maxLength)

/-- The per-part loop of `SendLongSMS`: send each part in order via
`SendSMS` (consuming one transport response per part), abort with a
`failed to send part i/total` error on the first failure, remember the
message id of part 0, and accumulate every written PDU. -/
def sendPartsLoop (msg : SMSMessage) (total : Nat) :
    List (List Nat) → Client → Nat → List (Except String Pdu) → List Nat → List Pdu → SendResult
  | [], c, _, _, firstID, acc =>
    { result := Except.ok firstID, client := c, sent := acc }
  | part :: restParts, c, i, resps, firstID, acc =>
    let res := SendSMS c { msg with Message := part } (resps.headD (Except.error "no response"))
    match res.result with
    | Except.error e =>
      { result := Except.error ("failed to send part " ++ toString (i + 1) ++ "/"
          ++ toString total ++ ": " ++ e)
        client := res.client
        sent := acc ++ res.sent }
    | Except.ok mid =>
      sendPartsLoop msg total restParts res.client (i + 1) (resps.drop 1)
        (if i = 0 then mid else firstID) (acc ++ res.sent)

/-- `SendLongSMS`: delegate to `SendSMS` when the payload fits in one
part, otherwise split into `ceil(len / maxLength)` parts and send them
in order, returning the first part's message id. -/
def SendLongSMS (c : Client) (msg : SMSMessage) (resps : List (Except String Pdu)) : SendResult :=
  if msg.Message.length ≤ maxLengthFor msg then
    SendSMS c msg (resps.headD (Except.error "no response"))
  else
    let partCount := (msg.Message.length + maxLengthFor msg - 1) / maxLengthFor msg
    sendPartsLoop msg partCount (partsOf msg.Message (maxLengthFor msg)) c 0 resps [] []

/-- `connection.close()`: drops the socket (idempotent, never fails in
the model; Go returns the socket close error, nil when already closed). -/
def closeConn (c : Client) : Client :=
  { c with sockOpen := false }

/-- `Disconnect`: when bound, allocate a sequence number for the unbind
PDU and exchange it (outcome given by the transport oracle `resp`); on
unbind failure close the socket and return the error; on success clear
the bound flag; in every path finish by closing the socket. -/
def Disconnect (c : Client) (resp : Except String Pdu) : Except String Unit × Client :=
  if c.bound then
    match resp with
    | Except.error e => (Except.error e, closeConn (nextSequence c).2)
    | Except.ok _ => (Except.ok (), closeConn { (nextSequence c).2 with bound := false })
  else
    (Except.ok (), closeConn c)

/-- Big-endian recomposition of four bytes into a 32-bit value
(`binary.BigEndian.Uint32`). -/
def beUint32 (b0 b1 b2 b3 : Nat) : Nat :=
  b0 * 16777216 + b1 * 65536 + b2 * 256 + b3

/-- Big-endian decomposition of a 32-bit value into four bytes
(`binary.BigEndian.PutUint32`; each byte is truncated mod 256). -/
def putUint32 (n : Nat) : List Nat :=
  [n / 16777216 % 256, n / 65536 % 256, n / 256 % 256, n % 256]

/-- The 16-byte header written by `writePDU`:
`[commandLength][commandID][commandStatus][sequenceNumber]`,
each field big-endian. -/
def encodeHeader (p : Pdu) : List Nat :=
  putUint32 p.commandLength ++ putUint32 p.commandID
    ++ putUint32 p.commandStatus ++ putUint32 p.sequenceNumber

/-- The header parse of `readPDU` (lines decoding `headerBuf[0:16]`):
the four big-endian fields of a 16-byte buffer.  A buffer shorter than
16 bytes never reaches this point (`io.ReadFull` fails first); the
catch-all arm is that unreachable case. -/
def decodeHeader (hdr : List Nat) : Pdu :=
  match hdr with
  | c0 :: c1 :: c2 :: c3 :: i0 :: i1 :: i2 :: i3 :: s0 :: s1 :: s2 :: s3 :: q0 :: q1 :: q2 :: q3 :: _ =>
    { commandLength := beUint32 c0 c1 c2 c3
      commandID := beUint32 i0 i1 i2 i3
      commandStatus := beUint32 s0 s1 s2 s3
      sequenceNumber := beUint32 q0 q1 q2 q3
      body := [] }
  | _ =>
    { commandLength := 0, commandID := 0, commandStatus := 0, sequenceNumber := 0, body := [] }

/-- Go unsigned 32-bit subtraction `a - b` (wraps modulo 2^32). -/
def sub32 (a b : Nat) : Nat :=
  (a % 4294967296 + 4294967296 - b % 4294967296) % 4294967296

/-- `readPDU` over an incoming byte stream: read 16 header bytes
(failing on a short stream, as `io.ReadFull` does), decode them,
compute `bodyLength = commandLength - 16` with `uint32` arithmetic,
and when it is positive read exactly that many body bytes (again
failing when the stream is too short). -/
def readPDU (stream : List Nat) : Except String Pdu :=
  if stream.length < 16 then Except.error "read error"
  else
    let hdr := stream.take 16
    let rest := stream.drop 16
    let p := decodeHeader hdr
    let bodyLength := sub32 p.commandLength 16
    if 0 < bodyLength then
      if rest.length < bodyLength then Except.error "read error"
      else Except.ok { p with body := rest.take bodyLength }
    else Except.ok p

/-! Concrete values used by counterexamples and witnesses. -/

/-- A message with both the Unicode and the binary flag set. -/
def msgBothFlags : SMSMessage :=
  { SourceAddr := [], DestAddr := [], Message := [], DataCoding := 0
    IsUnicode := true, IsBinary := true, RequestDeliveryReport := false }

/-- A plain message (no flags), 3-byte payload. -/
def msgPlain : SMSMessage :=
  { SourceAddr := [49, 50], DestAddr := [51, 52], Message := [72, 105, 33], DataCoding := 0
    IsUnicode := false, IsBinary := false, RequestDeliveryReport := false }

/-- A bound client. -/
def cBound : Client := { bound := true, sequenceNum := 1, sockOpen := true }

/-- An unbound client. -/
def cUnbound : Client := { bound := false, sequenceNum := 5, sockOpen := true }

/-- A successful submit_sm_resp carrying message id "AB" with a null
terminator. -/
def respOk : Pdu :=
  { commandLength := 19, commandID := 0x80000004, commandStatus := 0
    sequenceNumber := 1, body := [65, 66, 0] }

/-- A submit_sm_resp with the throttling status 88. -/
def respThrottled : Pdu :=
  { commandLength := 16, commandID := 0x80000004, commandStatus := 88
    sequenceNumber := 1, body := [] }

/-! Shape lemmas about the embedded operations. -/

/-- Body layout of the submit_sm mandatory-parameter block. -/
lemma submitParamsPdu_body (seq : Nat) (msg : SMSMessage) :
    (submitParamsPdu seq msg).body =
      [0, 0, 0] ++ msg.SourceAddr ++ [0, 1, 1] ++ msg.DestAddr
        ++ [0, esmClassFor msg, 0, 0, 0, 0, regDeliveryFor msg, 0, dataCodingFor msg, 0] := by
  simp [submitParamsPdu, newPDU, Pdu.writeString, Pdu.writeByte]

/-- `nextSequence` does not change the `bound` flag. -/
lemma nextSequence_bound (c : Client) : (nextSequence c).2.bound = c.bound := rfl

/-- `SendSMS` on a bound client with an in-limit payload and a
status-0 response: full description of the outcome. -/
lemma SendSMS_bound_ok (c : Client) (msg : SMSMessage) (r : Pdu)
    (hb : c.bound = true) (hlen : msg.Message.length ≤ 254) (hst : r.commandStatus = 0) :
    SendSMS c msg (Except.ok r) =
      { result := Except.ok (extractMessageID r.body)
        client := (nextSequence c).2
        sent := [framePDU (((submitParamsPdu (nextSequence c).1 msg).writeByte
          (msg.Message.length % 256)).write msg.Message)] } := by
  unfold SendSMS
  rw [hb]
  simp [Nat.not_lt.mpr hlen, hst]

/-- `SendSMS` on a bound client with an in-limit payload writes exactly
one PDU, whatever the transport outcome. -/
lemma SendSMS_sent_of_le (c : Client) (msg : SMSMessage) (resp : Except String Pdu)
    (hb : c.bound = true) (hlen : msg.Message.length ≤ 254) :
    (SendSMS c msg resp).sent =
      [framePDU (((submitParamsPdu (nextSequence c).1 msg).writeByte
        (msg.Message.length % 256)).write msg.Message)] := by
  unfold SendSMS
  rw [hb]
  simp only [Nat.not_lt.mpr hlen, if_false, Bool.false_eq_true, if_neg, reduceIte]
  cases resp with
  | error e => rfl
  | ok r =>
    by_cases hst : r.commandStatus = 0 <;> simp [hst]

/-- `SendSMS` on a bound client with an in-limit payload advances the
client exactly by `nextSequence`, whatever the transport outcome. -/
lemma SendSMS_client_of_le (c : Client) (msg : SMSMessage) (resp : Except String Pdu)
    (hb : c.bound = true) (hlen : msg.Message.length ≤ 254) :
    (SendSMS c msg resp).client = (nextSequence c).2 := by
  unfold SendSMS
  rw [hb]
  simp only [Nat.not_lt.mpr hlen, if_false, Bool.false_eq_true, if_neg, reduceIte]
  cases resp with
  | error e => rfl
  | ok r =>
    by_cases hst : r.commandStatus = 0 <;> simp [hst]

/-! ## C1 — data-coding selection -/

/-- C1 counterexample: when both `IsUnicode` and `IsBinary` are set the
data_coding byte written into the submit_sm PDU (the second-to-last byte
of the mandatory-parameter block, index 14 here) is 0x08, not the claimed
0x04 — Unicode, not binary, takes precedence in the code. -/
theorem dataCoding_both_flags_counterexample :
    dataCodingFor msgBothFlags = 0x08 ∧ dataCodingFor msgBothFlags ≠ 0x04
    ∧ (submitParamsPdu 1 msgBothFlags).body =
        [0, 0, 0, 0, 1, 1, 0, 4, 0, 0, 0, 0, 0, 0, 8, 0] := by
  refine ⟨rfl, by decide, ?_⟩
  rw [submitParamsPdu_body]
  rfl

/-- C1 (amended): the data_coding byte written into the submit_sm PDU
(followed only by the sm_default_msg_id byte within the parameter block)
is 0 by default, 0x08 whenever `IsUnicode` is set (also when `IsBinary`
is set too — Unicode takes precedence), and 0x04 when only `IsBinary`
is set. -/
theorem dataCoding_selection_amended (seq : Nat) (msg : SMSMessage) :
    (msg.IsUnicode = true → dataCodingFor msg = 0x08)
    ∧ (msg.IsUnicode = false ∧ msg.IsBinary = true → dataCodingFor msg = 0x04)
    ∧ (msg.IsUnicode = false ∧ msg.IsBinary = false → dataCodingFor msg = 0)
    ∧ ∃ pre, (submitParamsPdu seq msg).body = pre ++ [dataCodingFor msg, 0] := by
  refine ⟨fun h => by simp [dataCodingFor, h],
    fun h => by simp [dataCodingFor, h.1, h.2],
    fun h => by simp [dataCodingFor, h.1, h.2],
    ⟨[0, 0, 0] ++ msg.SourceAddr ++ [0, 1, 1] ++ msg.DestAddr
      ++ [0, esmClassFor msg, 0, 0, 0, 0, regDeliveryFor msg, 0], ?_⟩⟩
  rw [submitParamsPdu_body]
  simp

/-- C1 witness: the amended selection evaluated on the both-flags
message. -/
theorem dataCoding_selection_amended_witness :
    dataCodingFor msgBothFlags = 0x08
    ∧ ∃ pre, (submitParamsPdu 1 msgBothFlags).body = pre ++ [dataCodingFor msgBothFlags, 0] :=
  ⟨(dataCoding_selection_amended 1 msgBothFlags).1 rfl,
    (dataCoding_selection_amended 1 msgBothFlags).2.2.2⟩

/-! ## C9 — send while not bound -/

/-- C9: `SendSMS` on an unbound client fails with the not-bound error,
leaves the client state (including the sequence counter) unchanged and
writes no PDU. -/
theorem sendSMS_not_bound (c : Client) (msg : SMSMessage) (resp : Except String Pdu)
    (hb : c.bound = false) :
    SendSMS c msg resp =
      { result := Except.error "not bound to SMPP server", client := c, sent := [] } := by
  unfold SendSMS
  rw [hb]
  simp

/-- C9 witness. -/
theorem sendSMS_not_bound_witness :
    SendSMS cUnbound msgPlain (Except.ok respOk) =
      { result := Except.error "not bound to SMPP server", client := cUnbound, sent := [] } :=
  sendSMS_not_bound cUnbound msgPlain (Except.ok respOk) rfl

/-! ## C10 — empty payload accepted -/

/-- C10: on a bound client a zero-length payload is accepted — the
submit_sm PDU carries an sm_length byte of 0 and no short_message
bytes, and with a status-0 response the call succeeds. -/
theorem sendSMS_empty_message (c : Client) (msg : SMSMessage) (r : Pdu)
    (hb : c.bound = true) (hm : msg.Message = []) (hst : r.commandStatus = 0) :
    (SendSMS c msg (Except.ok r)).result = Except.ok (extractMessageID r.body)
    ∧ (SendSMS c msg (Except.ok r)).sent.map Pdu.body =
        [(submitParamsPdu (nextSequence c).1 msg).body ++ [0]] := by
  have hlen : msg.Message.length ≤ 254 := by rw [hm]; decide
  rw [SendSMS_bound_ok c msg r hb hlen hst]
  refine ⟨rfl, ?_⟩
  simp [framePDU, Pdu.writeByte, Pdu.write, hm]

/-- C10 witness: empty payload on a bound client. -/
theorem sendSMS_empty_message_witness :
    (SendSMS cBound { msgPlain with Message := [] } (Except.ok respOk)).result
        = Except.ok (extractMessageID respOk.body)
    ∧ (SendSMS cBound { msgPlain with Message := [] } (Except.ok respOk)).sent.map Pdu.body =
        [(submitParamsPdu (nextSequence cBound).1 { msgPlain with Message := [] }).body ++ [0]] :=
  sendSMS_empty_message cBound { msgPlain with Message := [] } respOk rfl rfl rfl

/-! ## C3 — single-PDU length limit -/

/-- C3: on a bound client, a payload of at most 254 bytes is written
inline as one sm_length byte equal to the payload length followed by
the payload bytes, and the call never fails on length (with a status-0
response it succeeds); a payload longer than 254 bytes fails with the
message-too-long error citing the byte length, and no PDU is written
(no auto-segmentation). -/
theorem sendSMS_length_limit (c : Client) (msg : SMSMessage) (r : Pdu)
    (hb : c.bound = true) :
    (msg.Message.length ≤ 254 →
      msg.Message.length % 256 = msg.Message.length
      ∧ (SendSMS c msg (Except.ok r)).sent.map Pdu.body =
          [(submitParamsPdu (nextSequence c).1 msg).body
            ++ msg.Message.length % 256 :: msg.Message]
      ∧ (r.commandStatus = 0 →
          (SendSMS c msg (Except.ok r)).result = Except.ok (extractMessageID r.body)))
    ∧ (254 < msg.Message.length →
      (SendSMS c msg (Except.ok r)).result = Except.error ("message too long ("
        ++ toString msg.Message.length ++ " bytes), max is 254 bytes")
      ∧ (SendSMS c msg (Except.ok r)).sent = []) := by
  constructor
  · intro hlen
    refine ⟨Nat.mod_eq_of_lt (by omega), ?_, ?_⟩
    · rw [SendSMS_sent_of_le c msg (Except.ok r) hb hlen]
      simp [framePDU, Pdu.writeByte, Pdu.write]
    · intro hst
      rw [SendSMS_bound_ok c msg r hb hlen hst]
  · intro hlen
    unfold SendSMS
    rw [hb]
    simp [hlen]

set_option maxRecDepth 10000 in
/-- C3 witness: 255 bytes is rejected with the error citing 255, while
254 bytes is written inline and succeeds. -/
theorem sendSMS_length_limit_witness :
    ((SendSMS cBound { msgPlain with Message := List.replicate 255 65 }
        (Except.ok respOk)).result
      = Except.error ("message too long (" ++ toString (255 : Nat)
          ++ " bytes), max is 254 bytes"))
    ∧ (SendSMS cBound { msgPlain with Message := List.replicate 254 65 }
        (Except.ok respOk)).result = Except.ok (extractMessageID respOk.body) :=
  ⟨((sendSMS_length_limit cBound { msgPlain with Message := List.replicate 255 65 }
      respOk rfl).2 (by simp)).1,
    ((sendSMS_length_limit cBound { msgPlain with Message := List.replicate 254 65 }
      respOk rfl).1 (by simp)).2.2 rfl⟩

/-! ## C8 — protocol-status errors -/

/-- C8: a nonzero `commandStatus` in the submit_sm response fails the
send with an error that carries the numeric status and its label; the
label for status 88 is "throttled - rate limit exceeded", and every
status outside the known table is labelled "unknown error". -/
theorem sendSMS_status_error (c : Client) (msg : SMSMessage) (r : Pdu)
    (hb : c.bound = true) (hlen : msg.Message.length ≤ 254) (hst : r.commandStatus ≠ 0) :
    (SendSMS c msg (Except.ok r)).result = Except.error ("submit_sm failed with status: "
      ++ toString r.commandStatus ++ " (" ++ errorMessageFor r.commandStatus ++ ")")
    ∧ errorMessageFor 88 = "throttled - rate limit exceeded"
    ∧ (∀ s : Nat, s ∉ ([1, 2, 3, 4, 5, 6, 7, 8, 10, 88] : List Nat) →
        errorMessageFor s = "unknown error") := by
  refine ⟨?_, rfl, ?_⟩
  · unfold SendSMS
    rw [hb]
    simp [Nat.not_lt.mpr hlen, hst]
  · intro s hs
    simp only [List.mem_cons, List.not_mem_nil, or_false, not_or] at hs
    obtain ⟨h1, h2, h3, h4, h5, h6, h7, h8, h10, h88⟩ := hs
    simp [errorMessageFor, h1, h2, h3, h4, h5, h6, h7, h8, h10, h88]

/-- C8 witness: status 88 on a bound client. -/
theorem sendSMS_status_error_witness :
    (SendSMS cBound msgPlain (Except.ok respThrottled)).result
      = Except.error ("submit_sm failed with status: " ++ toString (88 : Nat)
          ++ " (" ++ errorMessageFor 88 ++ ")") :=
  (sendSMS_status_error cBound msgPlain respThrottled rfl (by decide) (by decide)).1

/-! ## C6 — sequence-number stream -/

/-- `NewClient`'s protocol state: unbound, `sequenceNum` starting at 1. -/
def NewClient : Client := { bound := false, sequenceNum := 1, sockOpen := false }

/-- The client state after `k` calls of `nextSequence` from a fresh
client. -/
def clientAfter : Nat → Client
  | 0 => NewClient
  | k + 1 => (nextSequence (clientAfter k)).2

/-- The value returned by the `(k+1)`-th call of `nextSequence` on a
fresh client. -/
def seqAt (k : Nat) : Nat := (nextSequence (clientAfter k)).1

/-- Counter invariant: after `k` calls the stored counter is
`k % 0x7FFFFFFF + 1`. -/
lemma clientAfter_sequenceNum (k : Nat) :
    (clientAfter k).sequenceNum = k % 0x7FFFFFFF + 1 := by
  induction k with
  | zero => rfl
  | succ n ih =>
    show (nextSequence (clientAfter n)).2.sequenceNum = (n + 1) % 0x7FFFFFFF + 1
    simp only [nextSequence]
    rw [ih]
    split <;> omega

/-- C6: every value issued by `nextSequence` from a fresh client equals
`k % 0x7FFFFFFF + 1` for call index `k`, hence lies in
`[1, 0x7FFFFFFF]`; the stream starts at 1, increases by 1 while below
the ceiling, reaches 0x7FFFFFFF and returns 1 on the very next call. -/
theorem nextSequence_values :
    (∀ k : Nat, seqAt k = k % 0x7FFFFFFF + 1 ∧ 1 ≤ seqAt k ∧ seqAt k ≤ 0x7FFFFFFF)
    ∧ seqAt 0 = 1
    ∧ (∀ k : Nat, seqAt k < 0x7FFFFFFF → seqAt (k + 1) = seqAt k + 1)
    ∧ seqAt 0x7FFFFFFE = 0x7FFFFFFF
    ∧ seqAt 0x7FFFFFFF = 1 := by
  have hseq : ∀ k : Nat, seqAt k = k % 0x7FFFFFFF + 1 := by
    intro k
    show (nextSequence (clientAfter k)).1 = k % 0x7FFFFFFF + 1
    rw [show (nextSequence (clientAfter k)).1 = (clientAfter k).sequenceNum from rfl,
      clientAfter_sequenceNum]
  refine ⟨fun k => ⟨hseq k, ?_, ?_⟩, ?_, fun k hk => ?_, ?_, ?_⟩
  · rw [hseq k]; omega
  · rw [hseq k]
    have := Nat.mod_lt k (show 0 < 0x7FFFFFFF by norm_num)
    omega
  · rw [hseq 0]
  · rw [hseq k] at hk ⊢
    rw [hseq (k + 1)]
    omega
  · rw [hseq 0x7FFFFFFE]
  · rw [hseq 0x7FFFFFFF]

/-- C6 witness: the increase-by-1 step evaluated at the start of the
stream. -/
theorem nextSequence_values_witness : seqAt 1 = 2 := by
  have h := nextSequence_values
  have h0 : seqAt 0 = 1 := h.2.1
  have h1 : seqAt 1 = seqAt 0 + 1 := h.2.2.1 0 (by rw [h0]; norm_num)
  rw [h1, h0]

/-! ## C5 — disconnect -/

/-- C5 counterexample: on a bound client whose unbind exchange fails,
`Disconnect` closes the socket but leaves the `bound` flag set — the
session does not end in the unbound state the claim requires. -/
theorem disconnect_unbind_failure_counterexample :
    (Disconnect cBound (Except.error "timeout")).2.bound = true
    ∧ (Disconnect cBound (Except.error "timeout")).2.sockOpen = false := by
  exact ⟨rfl, rfl⟩

/-- C5 (amended): `Disconnect` always closes the Transport socket, and
an unbind failure is returned as the error without preventing socket
closure; the `bound` flag is cleared when the unbind exchange succeeds
(or the client was already unbound), but remains set after a failed
unbind. -/
theorem disconnect_amended (c : Client) (resp : Except String Pdu) :
    (Disconnect c resp).2.sockOpen = false
    ∧ (c.bound = false → Disconnect c resp = (Except.ok (), closeConn c))
    ∧ (∀ e, c.bound = true → resp = Except.error e →
        (Disconnect c resp).1 = Except.error e ∧ (Disconnect c resp).2.bound = c.bound)
    ∧ (∀ q, c.bound = true → resp = Except.ok q →
        (Disconnect c resp).1 = Except.ok () ∧ (Disconnect c resp).2.bound = false) := by
  refine ⟨?_, ?_, ?_, ?_⟩
  · cases hb : c.bound with
    | false => simp [Disconnect, hb, closeConn]
    | true => cases resp <;> simp [Disconnect, hb, closeConn]
  · intro hb
    simp [Disconnect, hb]
  · intro e hb hr
    subst hr
    refine ⟨?_, ?_⟩ <;> simp [Disconnect, hb, closeConn, nextSequence]
  · intro q hb hr
    subst hr
    refine ⟨?_, ?_⟩ <;> simp [Disconnect, hb, closeConn]

/-- C5 witness: disconnect of a bound client with a successful unbind
response. -/
theorem disconnect_amended_witness :
    (Disconnect cBound (Except.ok respOk)).1 = Except.ok ()
    ∧ (Disconnect cBound (Except.ok respOk)).2.bound = false :=
  (disconnect_amended cBound (Except.ok respOk)).2.2.2 respOk rfl rfl

/-! ## C7 — header round trip -/

/-- C7: decoding the 16-byte big-endian header produced for any PDU
(with fields in `uint32` range and a body short enough not to wrap)
reproduces `commandID`, `commandStatus` and `sequenceNumber` exactly,
and the encoded `commandLength` equals 16 plus the body length. -/
theorem header_roundtrip (p : Pdu)
    (hI : p.commandID < 4294967296) (hS : p.commandStatus < 4294967296)
    (hQ : p.sequenceNumber < 4294967296) (hB : 16 + p.body.length < 4294967296) :
    decodeHeader (encodeHeader (framePDU p)) =
      { commandLength := 16 + p.body.length
        commandID := p.commandID
        commandStatus := p.commandStatus
        sequenceNumber := p.sequenceNumber
        body := [] }
    ∧ (framePDU p).commandLength = 16 + p.body.length := by
  constructor
  · simp only [framePDU, encodeHeader, putUint32, List.cons_append, List.nil_append,
      decodeHeader, beUint32]
    simp only [Pdu.mk.injEq]
    refine ⟨by omega, by omega, by omega, by omega, trivial⟩
  · simp only [framePDU]
    exact Nat.mod_eq_of_lt hB

/-- C7 witness: round trip of a concrete submit_sm PDU with a 3-byte
body. -/
theorem header_roundtrip_witness :
    decodeHeader (encodeHeader (framePDU
        { commandLength := 16, commandID := 4, commandStatus := 0
          sequenceNumber := 7, body := [1, 2, 3] })) =
      { commandLength := 19, commandID := 4, commandStatus := 0
        sequenceNumber := 7, body := [] }
    ∧ (framePDU
        { commandLength := 16, commandID := 4, commandStatus := 0
          sequenceNumber := 7, body := [1, 2, 3] }).commandLength = 19 :=
  header_roundtrip
    { commandLength := 16, commandID := 4, commandStatus := 0
      sequenceNumber := 7, body := [1, 2, 3] }
    (by norm_num) (by norm_num) (by norm_num) (by norm_num)

/-! ## C4 — commandLength underflow in readPDU -/

/-- C4 (code evaluated at the failing input): a 16-byte header of all
zero bytes has `commandLength = 0 < 16`, yet `readPDU` does not fail —
the `uint32` subtraction `commandLength - 16` wraps to 4294967280 and
`readPDU` reads that many bytes as a purported body, succeeding when
the stream supplies them. -/
theorem readPDU_underflow_reads_wrapped_body :
    readPDU (List.replicate 16 0 ++ List.replicate 4294967280 9) =
      Except.ok
        { commandLength := 0, commandID := 0, commandStatus := 0
          sequenceNumber := 0, body := List.replicate 4294967280 9 }
    ∧ sub32 0 16 = 4294967280 := by
  constructor
  · have hlen : (List.replicate 16 (0 : Nat) ++ List.replicate 4294967280 9).length
        = 4294967296 := by
      rw [List.length_append, List.length_replicate, List.length_replicate]
    have htake : (List.replicate 16 (0 : Nat) ++ List.replicate 4294967280 9).take 16
        = List.replicate 16 0 :=
      List.take_left' (List.length_replicate 16 0)
    have hdrop : (List.replicate 16 (0 : Nat) ++ List.replicate 4294967280 9).drop 16
        = List.replicate 4294967280 9 :=
      List.drop_left' (List.length_replicate 16 0)
    have hdec : decodeHeader (List.replicate 16 0) =
        { commandLength := 0, commandID := 0, commandStatus := 0
          sequenceNumber := 0, body := [] } := rfl
    have hsub : sub32 0 16 = 4294967280 := by norm_num [sub32]
    unfold readPDU
    rw [if_neg (by rw [hlen]; norm_num)]
    simp only [htake, hdrop, hdec, hsub]
    rw [if_pos (by norm_num)]
    rw [if_neg (by rw [List.length_replicate]; norm_num)]
    rw [List.take_replicate, Nat.min_self]
  · norm_num [sub32]

/-! ## C2 — segmentation in SendLongSMS -/

/-- Concatenation of the first `n` maximal slices recovers the list,
provided `n * L` covers its length. -/
lemma slices_flatten (n : Nat) :
    ∀ (m : List Nat) (L : Nat), 0 < L → m.length ≤ n * L →
      ((List.range n).map (fun i => (m.drop (i * L)).take L)).flatten = m := by
  induction n with
  | zero =>
    intro m L _ hlen
    rw [Nat.zero_mul, Nat.le_zero] at hlen
    rw [List.eq_nil_of_length_eq_zero hlen]
    rfl
  | succ k ih =>
    intro m L hL hlen
    rw [List.range_succ_eq_map, List.map_cons, List.map_map, List.flatten_cons]
    have hcong : List.map ((fun i => (m.drop (i * L)).take L) ∘ Nat.succ) (List.range k)
        = List.map (fun i => ((m.drop L).drop (i * L)).take L) (List.range k) := by
      apply List.map_congr_left
      intro i _
      show (m.drop (Nat.succ i * L)).take L = ((m.drop L).drop (i * L)).take L
      rw [List.drop_drop]
      congr 1
      rw [Nat.succ_mul, Nat.add_comm]
    rw [hcong]
    rw [ih (m.drop L) L hL (by
      rw [List.length_drop]
      rw [Nat.succ_mul] at hlen
      exact Nat.sub_le_iff_le_add.mpr hlen)]
    show (m.drop (0 * L)).take L ++ m.drop L = m
    rw [Nat.zero_mul, List.drop_zero, List.take_append_drop]

/-- The number of parts produced by the segmentation slicing. -/
lemma partsOf_length (m : List Nat) (L : Nat) :
    (partsOf m L).length = (m.length + L - 1) / L := by
  unfold partsOf
  rw [List.length_map, List.length_range]

/-- The parts cover the whole message: their concatenation, in order,
is the original payload (consecutive, non-overlapping slices). -/
lemma partsOf_flatten (m : List Nat) (L : Nat) (hL : 0 < L) :
    (partsOf m L).flatten = m := by
  unfold partsOf
  apply slices_flatten _ _ _ hL
  have hd := Nat.div_add_mod (m.length + L - 1) L
  have hr : (m.length + L - 1) % L < L := Nat.mod_lt _ hL
  rw [Nat.mul_comm]
  generalize L * ((m.length + L - 1) / L) = X at hd ⊢
  omega

/-- Every part is at most `L` bytes long. -/
lemma partsOf_length_le (m : List Nat) (L : Nat) (p : List Nat)
    (hp : p ∈ partsOf m L) : p.length ≤ L := by
  unfold partsOf at hp
  obtain ⟨i, _, rfl⟩ := List.mem_map.mp hp
  exact List.length_take_le L _

/-- Every part except possibly the last is exactly `L` bytes long. -/
lemma partsOf_not_last_full (m : List Nat) (L : Nat) (i : Nat)
    (hL : 0 < L) (hi : i + 1 < (partsOf m L).length) :
    ((partsOf m L).getD i []).length = L := by
  have hi2 : i + 1 < (m.length + L - 1) / L := by rwa [partsOf_length] at hi
  unfold partsOf
  rw [List.getD_eq_getElem _ _ (by rw [List.length_map, List.length_range]; omega)]
  rw [List.getElem_map, List.getElem_range]
  rw [List.length_take, List.length_drop]
  have h1 : ((m.length + L - 1) / L) * L ≤ m.length + L - 1 := Nat.div_mul_le_self _ _
  have h2 : (i + 2) * L ≤ ((m.length + L - 1) / L) * L :=
    Nat.mul_le_mul_right L (by omega)
  rw [show (i + 2) * L = i * L + 2 * L by ring] at h2
  generalize i * L = A at h2 ⊢
  generalize ((m.length + L - 1) / L) * L = B at h1 h2
  omega

/-- After the first part has been sent, the loop keeps `firstID`
untouched, succeeds when every remaining response is a status-0
reply, and writes one submit PDU per remaining part, in order, each
carrying its part as the length-prefixed short_message tail. -/
lemma sendPartsLoop_tail_ok (msg : SMSMessage) (total : Nat) :
    ∀ (parts : List (List Nat)) (c : Client) (i : Nat)
      (resps : List (Except String Pdu)) (fid : List Nat) (acc : List Pdu),
      c.bound = true →
      (∀ p ∈ parts, p.length ≤ 254) →
      (∀ e ∈ resps, ∃ q, e = Except.ok q ∧ q.commandStatus = 0) →
      parts.length ≤ resps.length →
      1 ≤ i →
      (sendPartsLoop msg total parts c i resps fid acc).result = Except.ok fid
      ∧ ∃ qs, (sendPartsLoop msg total parts c i resps fid acc).sent = acc ++ qs
          ∧ List.Forall₂ (fun q p => ∃ pre, Pdu.body q = pre ++ (p.length % 256) :: p)
              qs parts := by
  intro parts
  induction parts with
  | nil =>
    intro c i resps fid acc _ _ _ _ _
    exact ⟨rfl, [], by simp [sendPartsLoop], List.Forall₂.nil⟩
  | cons p rest ih =>
    intro c i resps fid acc hb hparts hall hlen hi
    cases resps with
    | nil => simp at hlen
    | cons e resps =>
      obtain ⟨q, he, hq0⟩ := hall e (List.mem_cons_self e resps)
      subst he
      have hple : p.length ≤ 254 := hparts p (List.mem_cons_self p rest)
      have hsend := SendSMS_bound_ok c { msg with Message := p } q hb hple hq0
      simp only [sendPartsLoop, List.headD_cons, hsend, List.drop_succ_cons, List.drop_zero]
      rw [if_neg (by omega : ¬ i = 0)]
      obtain ⟨hres, qs, hsent, hfa⟩ :=
        ih (nextSequence c).2 (i + 1) resps fid
          (acc ++ [framePDU (((submitParamsPdu (nextSequence c).1
            { msg with Message := p }).writeByte (p.length % 256)).write p)])
          (by rw [nextSequence_bound]; exact hb)
          (fun x hx => hparts x (List.mem_cons_of_mem p hx))
          (fun x hx => hall x (List.mem_cons_of_mem _ hx))
          (by simpa using hlen)
          (by omega)
      refine ⟨hres, framePDU (((submitParamsPdu (nextSequence c).1
          { msg with Message := p }).writeByte (p.length % 256)).write p) :: qs, ?_, ?_⟩
      · rw [hsent, List.append_assoc, List.singleton_append]
      · refine List.Forall₂.cons ⟨(submitParamsPdu (nextSequence c).1
          { msg with Message := p }).body, ?_⟩ hfa
        simp [framePDU, Pdu.writeByte, Pdu.write]

/-- The loop started at index 0: the first part's response supplies the
returned message id; every part is sent in order. -/
lemma sendPartsLoop_start_ok (msg : SMSMessage) (total : Nat) (p0 : List Nat)
    (parts : List (List Nat)) (c : Client) (q0 : Pdu)
    (resps : List (Except String Pdu)) (fid : List Nat)
    (hb : c.bound = true)
    (hp0 : p0.length ≤ 254) (hparts : ∀ p ∈ parts, p.length ≤ 254)
    (hq0 : q0.commandStatus = 0)
    (hall : ∀ e ∈ resps, ∃ q, e = Except.ok q ∧ q.commandStatus = 0)
    (hlen : parts.length ≤ resps.length) :
    (sendPartsLoop msg total (p0 :: parts) c 0 (Except.ok q0 :: resps) fid []).result
      = Except.ok (extractMessageID q0.body)
    ∧ List.Forall₂ (fun q p => ∃ pre, Pdu.body q = pre ++ (p.length % 256) :: p)
        ((sendPartsLoop msg total (p0 :: parts) c 0 (Except.ok q0 :: resps) fid []).sent)
        (p0 :: parts) := by
  have hsend := SendSMS_bound_ok c { msg with Message := p0 } q0 hb hp0 hq0
  simp only [sendPartsLoop, List.headD_cons, hsend, List.drop_succ_cons, List.drop_zero,
    reduceIte]
  obtain ⟨hres, qs, hsent, hfa⟩ :=
    sendPartsLoop_tail_ok msg total parts (nextSequence c).2 (0 + 1) resps
      (extractMessageID q0.body)
      ([] ++ [framePDU (((submitParamsPdu (nextSequence c).1
        { msg with Message := p0 }).writeByte (p0.length % 256)).write p0)])
      (by rw [nextSequence_bound]; exact hb)
      hparts hall hlen (by omega)
  refine ⟨hres, ?_⟩
  rw [hsent, List.nil_append, List.singleton_append]
  refine List.Forall₂.cons ⟨(submitParamsPdu (nextSequence c).1
      { msg with Message := p0 }).body, ?_⟩ hfa
  simp [framePDU, Pdu.writeByte, Pdu.write]

/-- The per-part limit is positive and within the single-PDU limit. -/
lemma maxLengthFor_pos_le (msg : SMSMessage) :
    0 < maxLengthFor msg ∧ maxLengthFor msg ≤ 254 := by
  unfold maxLengthFor
  split <;> norm_num

/-- The message used by the segmentation witness: 300 non-Unicode
bytes. -/
def msg300 : SMSMessage :=
  { SourceAddr := [], DestAddr := [], Message := List.replicate 300 65, DataCoding := 0
    IsUnicode := false, IsBinary := false, RequestDeliveryReport := false }

/-- C2: on a bound client, a payload longer than the per-part limit
(153 bytes, 67 for Unicode) is split into consecutive, non-overlapping
parts of at most that limit that together cover the whole message, with
only the last part possibly shorter; every part is sent in order via
`SendSMS` (each written PDU carries its part as the length-prefixed
short_message tail), and the message id of the first part is returned.
A message that fits in one part is delegated to `SendSMS` unchanged. -/
theorem sendLongSMS_segmentation (c : Client) (msg : SMSMessage) (r0 : Pdu)
    (restResps : List (Except String Pdu))
    (hb : c.bound = true)
    (hlong : maxLengthFor msg < msg.Message.length)
    (h0 : r0.commandStatus = 0)
    (hrest : ∀ e ∈ restResps, ∃ q, e = Except.ok q ∧ q.commandStatus = 0)
    (hn : (msg.Message.length + maxLengthFor msg - 1) / maxLengthFor msg
      ≤ restResps.length + 1) :
    (partsOf msg.Message (maxLengthFor msg)).flatten = msg.Message
    ∧ (∀ p ∈ partsOf msg.Message (maxLengthFor msg), p.length ≤ maxLengthFor msg)
    ∧ (∀ i : Nat, i + 1 < (partsOf msg.Message (maxLengthFor msg)).length →
        ((partsOf msg.Message (maxLengthFor msg)).getD i []).length = maxLengthFor msg)
    ∧ (SendLongSMS c msg (Except.ok r0 :: restResps)).result
        = Except.ok (extractMessageID r0.body)
    ∧ List.Forall₂ (fun q p => ∃ pre, Pdu.body q = pre ++ (p.length % 256) :: p)
        ((SendLongSMS c msg (Except.ok r0 :: restResps)).sent)
        (partsOf msg.Message (maxLengthFor msg))
    ∧ (∀ (c2 : Client) (msg2 : SMSMessage) (resps2 : List (Except String Pdu)),
        msg2.Message.length ≤ maxLengthFor msg2 →
        SendLongSMS c2 msg2 resps2
          = SendSMS c2 msg2 (resps2.headD (Except.error "no response"))) := by
  obtain ⟨hL, hL254⟩ := maxLengthFor_pos_le msg
  have hmain : (SendLongSMS c msg (Except.ok r0 :: restResps)).result
        = Except.ok (extractMessageID r0.body)
      ∧ List.Forall₂ (fun q p => ∃ pre, Pdu.body q = pre ++ (p.length % 256) :: p)
        ((SendLongSMS c msg (Except.ok r0 :: restResps)).sent)
        (partsOf msg.Message (maxLengthFor msg)) := by
    have hcount : (partsOf msg.Message (maxLengthFor msg)).length
        = (msg.Message.length + maxLengthFor msg - 1) / maxLengthFor msg :=
      partsOf_length _ _
    have hpos : 1 ≤ (msg.Message.length + maxLengthFor msg - 1) / maxLengthFor msg :=
      (Nat.one_le_div_iff hL).mpr (by omega)
    unfold SendLongSMS
    rw [if_neg (by omega)]
    rcases hpe : partsOf msg.Message (maxLengthFor msg) with _ | ⟨p0, tail⟩
    · rw [hpe] at hcount
      simp at hcount
      omega
    · have hp0mem : p0 ∈ partsOf msg.Message (maxLengthFor msg) := by
        rw [hpe]; exact List.mem_cons_self p0 tail
      have htailmem : ∀ p ∈ tail, p ∈ partsOf msg.Message (maxLengthFor msg) := by
        intro p hp
        rw [hpe]; exact List.mem_cons_of_mem p0 hp
      have htlen : tail.length ≤ restResps.length := by
        rw [hpe] at hcount
        simp only [List.length_cons] at hcount
        omega
      exact sendPartsLoop_start_ok msg _ p0 tail c r0 restResps [] hb
        (le_trans (partsOf_length_le _ _ _ hp0mem) hL254)
        (fun p hp => le_trans (partsOf_length_le _ _ _ (htailmem p hp)) hL254)
        h0 hrest htlen
  refine ⟨partsOf_flatten _ _ hL,
    fun p hp => partsOf_length_le _ _ _ hp,
    fun i hi => partsOf_not_last_full _ _ i hL hi,
    hmain.1, hmain.2,
    fun c2 msg2 resps2 hfit => ?_⟩
  unfold SendLongSMS
  rw [if_pos hfit]

set_option maxRecDepth 100000 in
/-- C2 witness: a 300-byte non-Unicode message on a bound client is
sent as exactly 2 parts of 153 and 147 bytes, the concatenation of the
parts is the original payload, and the returned id is the first part's
response id. -/
theorem sendLongSMS_segmentation_witness :
    (partsOf msg300.Message (maxLengthFor msg300)).map List.length = [153, 147]
    ∧ (partsOf msg300.Message (maxLengthFor msg300)).flatten = msg300.Message
    ∧ (SendLongSMS cBound msg300 [Except.ok respOk, Except.ok respOk]).result
        = Except.ok (extractMessageID respOk.body) :=
  have h := sendLongSMS_segmentation cBound msg300 respOk [Except.ok respOk] rfl
    (by decide) rfl
    (by intro e he
        rw [List.mem_singleton] at he
        exact ⟨respOk, he, rfl⟩)
    (by decide)
  ⟨by decide, h.1, h.2.2.2.1⟩

end Smpp
